import Mathlib

/-!
Verification of the Betaflight auto-backup extension core
(content script `content.js`, background service worker, popup).

Shallow embedding conventions:
* DOM state, screenshot primitives and timing oracles are passed explicitly
  as function parameters (`Nat → _`, indexed by call/poll counters).
* JS exceptions thrown by `checkAbort` are modelled as an explicit early
  return carrying the state at the point of the throw, so that the state
  after an aborted run remains observable.
* Machine integers do not overflow in any of the embedded code paths
  (counters, pixel counts), so they are modelled as `Nat`; scroll deltas and
  the device-scale factor are real-valued in JS and are modelled as `ℚ`,
  with JS `Math.round` modelled by Mathlib's `round` (both are ⌊x + 1/2⌋).
-/

namespace BfBackup

/-! ### Orchestration: tab filtering (`startBackupProcess`, content.js 337-412) -/

/-- The fixed blacklist of tabs never visited (content.js line 337). -/
def BLACKLIST : List String := ["tab_landing", "tab_firmware_flasher", "tab_presets"]

/-- Options record handed to `startBackupProcess` (popup `getOptions`).
`selectedTabs` is `none` when the message carried no `selectedTabs` field. -/
structure Options where
  screenshots : Bool
  cli : Bool
  profiles : Bool
  selectedTabs : Option (List String)

/-- JS `String.prototype.includes` over character lists: `sub` occurs as a
contiguous substring of `s`. -/
def jsIncludesL (s sub : List Char) : Bool :=
  (List.range (s.length + 1)).any (fun i => sub.isPrefixOf (s.drop i))

/-- JS `String.prototype.includes`: `sub` occurs as a contiguous substring. -/
def jsIncludes (s sub : String) : Bool :=
  jsIncludesL s.data sub.data

/-- The filter predicate of `filteredTabs` (content.js 400-409), translated
clause by clause from the chain of early `return false`s. -/
def includedTab (o : Options) (cls : String) : Bool :=
  if BLACKLIST.any (fun b => jsIncludes cls b) then false
  else if cls == "tab_cli" && !o.cli then false
  else if !o.screenshots && cls != "tab_cli" then false
  else if (match o.selectedTabs with
           | some l => decide (0 < l.length)
           | none => false) && cls != "tab_cli" then
    (o.selectedTabs.getD []).contains cls
  else true

/-- `filteredTabs` (content.js line 400). -/
def filteredTabs (o : Options) (tabs : List String) : List String :=
  tabs.filter (includedTab o)

/-- `totalTabs` = `filteredTabs.length` (content.js line 411), the progress
total reported through `setProgress(0, totalTabs)`. -/
def totalTabs (o : Options) (tabs : List String) : Nat :=
  (filteredTabs o tabs).length

/-- The inclusion predicate in the words of claim C2: the class is *not a
member* of the blacklist; the CLI tab needs `cli`; every other tab needs
`screenshots` and (no explicit selection, or membership in it). -/
def claimIncludedTab (o : Options) (cls : String) : Bool :=
  !(BLACKLIST.contains cls) &&
  (if cls == "tab_cli" then o.cli
   else o.screenshots &&
     (match o.selectedTabs with
      | none => true
      | some l => decide (l.length = 0) || l.contains cls))

/-- The inclusion predicate in the words of the AMENDED claim C2: as the
claim, except that the blacklist clause excludes any class CONTAINING a
blacklist entry as a substring (the code's `tab.cls.includes(b)`), not just
blacklist members. -/
def amendedIncludedTab (o : Options) (cls : String) : Bool :=
  !(BLACKLIST.any (fun b => jsIncludes cls b)) &&
  (if cls == "tab_cli" then o.cli
   else o.screenshots &&
     (match o.selectedTabs with
      | none => true
      | some l => decide (l.length = 0) || l.contains cls))

/-! ### Capture service (`requestScreenshot`, content.js 281-305) -/

/-- The retry loop of `requestScreenshot`.  `prim attempt` is the outcome of
the `captureTab` message for that attempt (`none` = error/timeout).  Returns
the screenshot (or `none` after all attempts fail) together with the list of
backoff sleeps (`1500 * (attempt + 1)` ms) performed after failed attempts. -/
def rsLoop (prim : Nat → Option String) : Nat → Nat → Option String × List Nat
  | _, 0 => (none, [])
  | attempt, fuel + 1 =>
    match prim attempt with
    | some s => (some s, [])
    | none =>
      let r := rsLoop prim (attempt + 1) fuel
      (r.1, (1500 * (attempt + 1)) :: r.2)

/-- `requestScreenshot` (content.js 281-305): three total attempts, then
`null` (the minimum-interval wait before the first attempt is orthogonal to
this claim and not modelled). -/
def requestScreenshot (prim : Nat → Option String) : Option String × List Nat :=
  rsLoop prim 0 3

/-- The single-screenshot branch of `captureAndSave` (content.js 173-181):
on a `null` screenshot it reports a warning status and saves nothing; on
success it saves one file.  Returns (saved file names, status messages). -/
def captureAndSaveSingle (prim : Nat → Option String) (baseFileName : String) :
    List String × List String :=
  match (requestScreenshot prim).1 with
  | none => ([], ["WARNING: Screenshot failed for " ++ baseFileName])
  | some _ => ([baseFileName ++ ".jpg"], [])

/-! ### Background worker state (service worker in README, C8/C10) -/

/-- One archive entry: (folderName, fileName, content). -/
abbrev ZipEntry := String × String × String

/-- Module-level state of the background service worker. -/
structure BgState where
  isRunning : Bool
  backupZip : Option (List ZipEntry)
  rootFolderName : String
  activeTabId : Option Nat

/-- Observable effects emitted by background handlers. -/
inductive BgEffect where
  | statusError (msg : String)
  | runExtraction (tabId : Nat)
  | abortTab (tabId : Nat)
  deriving Repr, DecidableEq

/-- `handleStartBackup` (background worker): reject synchronously while a
run is active, otherwise create the zip, mark running and signal the tab. -/
def handleStartBackup (s : BgState) (tabId : Nat) (timestamp : String) :
    BgState × List BgEffect :=
  if s.isRunning then
    (s, [.statusError "Backup is already running."])
  else
    ({ isRunning := true
       backupZip := some []
       rootFolderName := "Betaflight_Backup_" ++ timestamp
       activeTabId := some tabId },
     [.runExtraction tabId])

/-- The `stopBackup` message handler (background worker). -/
def onStopBackup (s : BgState) : BgState × List BgEffect :=
  match s.activeTabId with
  | some t =>
    if s.isRunning then
      ({ s with isRunning := false, backupZip := none },
       [.abortTab t, .statusError "Backup stopped by user."])
    else (s, [])
  | none => (s, [])

/-- Response shape of the `saveFile` handler. -/
structure SaveResp where
  success : Bool
  deriving Repr, DecidableEq

/-- The `saveFile` message handler (background worker): with no active zip it
responds `{success: false}` and changes nothing; otherwise it appends the
entry under the root folder. -/
def onSaveFile (s : BgState) (folderName fileName content : String) :
    BgState × SaveResp :=
  match s.backupZip with
  | none => (s, ⟨false⟩)
  | some entries =>
    ({ s with backupZip := some (entries ++ [(folderName, fileName, content)]) }, ⟨true⟩)

/-- Content-script module state (content.js lines 13-14). -/
structure ContentState where
  backupRunning : Bool
  abortRequested : Bool

/-- The `runExtraction` branch of the content script's `onMessage` listener
(content.js 17-24): a duplicate signal while running is ignored.  The `Bool`
result records whether a backup process was started. -/
def onRunExtraction (c : ContentState) : ContentState × Bool :=
  if c.backupRunning then (c, false)
  else ({ backupRunning := true, abortRequested := false }, true)

/-! ### CLI tab handler (`handleCliTab`, content.js 801-861, C9) -/

/-- JS `String.prototype.trim`, over the character-list model of strings. -/
def jsTrim (l : List Char) : List Char :=
  ((l.dropWhile Char.isWhitespace).reverse.dropWhile Char.isWhitespace).reverse

/-- Outcome of one CLI command in `handleCliTab`. -/
inductive CliEv where
  | saved (file : String)
  | warning (msg : String)
  deriving Repr, DecidableEq

/-- Whether a `CliEv` persisted a file. -/
def CliEv.isSaved : CliEv → Bool
  | .saved _ => true
  | .warning _ => false

/-- The per-command body of `handleCliTab`'s loop (content.js 834-857):
if the command could not be sent, warn and continue; else persist the output
only when it is non-empty and its trimmed length exceeds 10 characters,
otherwise warn. -/
def cliCommandStep (sentOk : Bool) (output : List Char) (file : String) : CliEv :=
  if !sentOk then .warning "Could not send command - skipping."
  else if !output.isEmpty && decide (10 < (jsTrim output).length) then .saved file
  else .warning "No output."

/-- The command loop of `handleCliTab`: command `i` uses oracle values
`sent i` and `outs i`; every command produces exactly one event (no early
exit on short output). -/
def handleCliTab (sent : Nat → Bool) (outs : Nat → List Char)
    (cmds : List String) : List CliEv :=
  (List.range cmds.length).map
    (fun i => cliCommandStep (sent i) (outs i) (cmds.getD i ""))

/-! ### CLI quiescence wait (`cliWaitForStableOutput`, content.js 1014-1039, C6) -/

/-- The loop body/state of `cliWaitForStableOutput`.  `lens k` is the length
of `cliRead()` at the k-th poll (one poll per second); `fuel` is the poll
budget left before `maxWaitMs` elapses.  Returns `some k` when stability is
declared at poll `k`, `none` on timeout (the JS function then returns
normally; abort is not requested in the runs this models). -/
def cliGo (lens : Nat → Nat) : Nat → Nat → Nat → Nat → Option Nat
  | 0, _, _, _ => none
  | fuel + 1, lastLen, stable, k =>
    let len := lens k
    if lastLen < len then cliGo lens fuel len 0 (k + 1)
    else if 0 < len then
      if 2 ≤ stable + 1 then some k
      else cliGo lens fuel lastLen (stable + 1) (k + 1)
    else cliGo lens fuel lastLen stable (k + 1)

/-- `cliWaitForStableOutput` (content.js 1014-1039), with the wall-clock
guard `Date.now() - start < maxMs` modelled as a budget of `maxPolls`
one-second polls. -/
def cliWaitForStableOutput (lens : Nat → Nat) (maxPolls : Nat) : Option Nat :=
  cliGo lens maxPolls 0 0 0

/-- Running maximum of poll lengths strictly before poll `n`; this is the
value of the loop's `lastLen` variable when poll `n` is taken. -/
def runMax (lens : Nat → Nat) : Nat → Nat
  | 0 => 0
  | n + 1 => max (runMax lens n) (lens n)

/-! ### Connectivity probe and panel loop (`isConnected`, content.js 76-99;
per-panel check in `startBackupProcess`, content.js 416-423, C7) -/

/-- What the four layered DOM queries of `isConnected` can observe:
`bem`/`classic` are `some active?` when the respective button exists,
`indicatorActive` is the `[class*="connect"][class*="active"]` match,
`navVisible` is a visible `ul.mode-connected > li`. -/
structure DomProbe where
  bem : Option Bool
  classic : Option Bool
  indicatorActive : Bool
  navVisible : Bool

/-- `isConnected` (content.js 76-99): `some false` = explicit disconnect,
`none` = no indicator found (assume connected, do not abort). -/
def isConnected (d : DomProbe) : Option Bool :=
  match d.bem with
  | some act => some act
  | none =>
    match d.classic with
    | some act => some act
    | none =>
      if d.indicatorActive then some true
      else if d.navVisible then some true
      else none

/-- The per-panel loop of `startBackupProcess` (content.js 416-452), with
panel handling abstracted to recording the dispatched class.  `abortF i` is
the `abortRequested` flag at the top of iteration `i`; `doms i` the DOM
state the connectivity probe sees there.  Returns the dispatched panels and
the error message of the throw that ended the run, if any. -/
def processTabs (abortF : Nat → Bool) (doms : Nat → DomProbe) :
    List String → Nat → List String × Option String
  | [], _ => ([], none)
  | t :: ts, i =>
    if abortF i then ([], some "Backup stopped by user.")
    else if isConnected (doms i) = some false then
      ([], some "Connection lost - backup aborted.")
    else
      let r := processTabs abortF doms ts (i + 1)
      (t :: r.1, r.2)

/-! ### Variant cycling (`handlePidTuningTab`, content.js 541-621, C1) -/

/-- Environment of one `handlePidTuningTab` run: the option values of the
two profile dropdowns (`rateOpts = none` ⟺ `findSelect` returned null for
the rate select), the sub-tab count, when the user requests an abort
(`abortFrom = some m` ⟺ the m-th and later `checkAbort` calls throw), and
whether the j-th `setSelectValueVerified` call takes effect on the device
(`setEffect j = false` models a switch silently rejected through all
retries).  `captureOk j` is whether the j-th screenshot capture succeeds. -/
structure CycleEnv where
  pidOpts : List Nat
  rateOpts : Option (List Nat)
  subTabCount : Nat
  abortFrom : Option Nat
  setEffect : Nat → Bool
  captureOk : Nat → Bool

/-- Observable state threaded through a cycling run: the two dropdown
values, call counters for the oracles, and the assets emitted so far. -/
structure CycleSt where
  pid : Nat
  rate : Nat
  abortCalls : Nat
  setCalls : Nat
  capCalls : Nat
  assets : List String

/-- Whether `abortRequested` is set when the n-th `checkAbort` call runs. -/
def shouldAbort (env : CycleEnv) (n : Nat) : Bool :=
  match env.abortFrom with
  | none => false
  | some m => decide (m ≤ n)

/-- `checkAbort` (content.js 47-49): the `Bool` is false when it throws. -/
def checkAbortStep (env : CycleEnv) (st : CycleSt) : CycleSt × Bool :=
  ({ st with abortCalls := st.abortCalls + 1 }, !(shouldAbort env st.abortCalls))

/-- `setSelectValueVerified` on the PID select (content.js 765-795): the
value changes only if the device accepts it; verification retries are
internal and summarised by the per-call `setEffect` oracle. -/
def setVerifiedPid (env : CycleEnv) (v : Nat) (st : CycleSt) : CycleSt :=
  { st with pid := if env.setEffect st.setCalls then v else st.pid
            setCalls := st.setCalls + 1 }

/-- `setSelectValueVerified` on the rate select. -/
def setVerifiedRate (env : CycleEnv) (v : Nat) (st : CycleSt) : CycleSt :=
  { st with rate := if env.setEffect st.setCalls then v else st.rate
            setCalls := st.setCalls + 1 }

/-- `clickSubTab` + `captureAndSave` for one variant view: emits an asset if
the capture succeeds, else only warns (content.js 174-178).  Capture-internal
abort checkpoints are not modelled (conservative for the claims below, which
either schedule the abort at a loop-top checkpoint or forbid aborts). -/
def captureStep (env : CycleEnv) (name : String) (st : CycleSt) : CycleSt :=
  { st with assets := if env.captureOk st.capCalls then st.assets ++ [name] else st.assets
            capCalls := st.capCalls + 1 }

/-- The PID-profile loop (content.js 559-573): `checkAbort`, switch, capture
per option value.  The `Bool` is false when the run was aborted. -/
def pidLoop (env : CycleEnv) : List Nat → CycleSt → CycleSt × Bool
  | [], st => (st, true)
  | v :: vs, st =>
    let r := checkAbortStep env st
    if r.2 then pidLoop env vs (captureStep env "PID" (setVerifiedPid env v r.1))
    else (r.1, false)

/-- The rate-profile loop (content.js 578-592). -/
def rateLoop (env : CycleEnv) : List Nat → CycleSt → CycleSt × Bool
  | [], st => (st, true)
  | v :: vs, st =>
    let r := checkAbortStep env st
    if r.2 then rateLoop env vs (captureStep env "Rates" (setVerifiedRate env v r.1))
    else (r.1, false)

/-- Step 2 of `handlePidTuningTab` (content.js 576-599): rate cycling only
when a second sub-tab exists; single capture when the rate select is missing
or has at most one option. -/
def ratePhase (env : CycleEnv) (st : CycleSt) : CycleSt × Bool :=
  if 1 < env.subTabCount then
    match env.rateOpts with
    | some ropts =>
      if 1 < ropts.length then rateLoop env ropts st
      else (captureStep env "Rates" st, true)
    | none => (captureStep env "Rates" st, true)
  else (st, true)

/-- Step 3 of `handlePidTuningTab` (content.js 601-607): one capture of the
global filter sub-tab when it exists. -/
def filterPhase (env : CycleEnv) (st : CycleSt) : CycleSt :=
  if 2 < env.subTabCount then captureStep env "Filter" st else st

/-- The restoration block of `handlePidTuningTab` (content.js 609-616):
re-apply the original PID value, then the original rate value when the rate
select was found (`originalRate != null`). -/
def restorePhase (env : CycleEnv) (origPid : Nat) (origRate : Option Nat)
    (st : CycleSt) : CycleSt :=
  let st1 := setVerifiedPid env origPid st
  match env.rateOpts, origRate with
  | some _, some r => setVerifiedRate env r st1
  | _, _ => st1

/-- `handlePidTuningTab` (content.js 541-621).  The cycling branch is taken
when the PID dropdown was found with more than one option; the `Bool` is
true iff the function returned normally (false = the `checkAbort` throw
propagated out).  The no-dropdown branch degrades to a plain capture. -/
def handlePidTuningTab (env : CycleEnv) (s0 : CycleSt) : CycleSt × Bool :=
  if 1 < env.pidOpts.length then
    let origPid := s0.pid
    let origRate := env.rateOpts.map (fun _ => s0.rate)
    let r1 := pidLoop env env.pidOpts s0
    if r1.2 then
      let r2 := ratePhase env r1.1
      if r2.2 then
        (restorePhase env origPid origRate (filterPhase env r2.1), true)
      else (r2.1, false)
    else (r1.1, false)
  else (captureStep env "SubTabs" s0, true)

/-! ### Stitcher (`stitchScreenshots`, content.js 235-279, C3/C4) -/

/-- A decoded bitmap: `row y` is the pixel row at height `y` (a list of
colour codes, meaningful for `y < height`). -/
structure Img where
  width : Nat
  height : Nat
  row : Nat → List Nat

/-- A default image for indexed list access (never selected under the
length hypotheses of the theorems below). -/
def dfltImg : Img := { width := 0, height := 0, row := fun _ => [] }

/-- `Math.round(d * scale)` clamped to `Nat` pixel rows; scroll deltas in
the stitcher's call sites are non-negative, where the clamp is exact. -/
def newPx (scale : ℚ) (d : ℚ) : Nat := (round (d * scale)).toNat

/-- `scale = width / window.innerWidth` (content.js line 247). -/
def scaleOf (i0 : Img) (innerWidth : ℚ) : ℚ := (i0.width : ℚ) / innerWidth

/-- The per-gap new-pixel counts `Math.round(scrollDeltas[i] * scale)`. -/
def nsOf (i0 : Img) (deltas : List ℚ) (innerWidth : ℚ) : List Nat :=
  deltas.map (newPx (scaleOf i0 innerWidth))

/-- A single `ctx.drawImage(img, 0, srcY, w, n, 0, y, w, n)`: rows
`[srcY, srcY+n)` of `img` land at canvas rows `[y, y+n)`. -/
def drawImageRows (c : Nat → List Nat) (img : Img) (srcY n y : Nat) :
    Nat → List Nat :=
  fun r => if y ≤ r ∧ r < y + n then img.row (srcY + (r - y)) else c r

/-- The stitching loop (content.js 264-272): part `i+1` paired with its
`newPx` count is drawn at the running offset `y`, sourcing rows from
`imgHeight - newPx` where `imgHeight` is the FIRST image's height. -/
def drawParts (h0 : Nat) : List (Img × Nat) → (Nat → List Nat) → Nat →
    (Nat → List Nat)
  | [], c, _ => c
  | (img, n) :: tl, c, y => drawParts h0 tl (drawImageRows c img (h0 - n) n y) (y + n)

/-- `stitchScreenshots` (content.js 235-279): `scale = width / innerWidth`,
`totalHeight = h0 + Σ round(delta * scale)`, part 0 drawn in full at the
top, each later part contributing its rows `[h0 - newPx, h0)` below.  An
empty part list throws in JS (caught, `null`), hence `none`.  JPEG
re-encoding of the canvas is identity at this pixel-content level. -/
def stitchScreenshots (imgs : List Img) (deltas : List ℚ) (innerWidth : ℚ) :
    Option Img :=
  match imgs with
  | [] => none
  | i0 :: rest =>
    let ns := nsOf i0 deltas innerWidth
    let canvas0 : Nat → List Nat := fun _ => List.replicate i0.width 0
    let c1 := drawImageRows canvas0 i0 0 i0.height 0
    some { width := i0.width
           height := i0.height + ns.sum
           row := drawParts i0.height (rest.zip ns) c1 i0.height }

/-- Lookup of a composite row inside the appended segments: offset `r` below
the first image's extent falls in the segment of the part covering it. -/
def segRow (h0 : Nat) : List (Img × Nat) → Nat → Option (List Nat)
  | [], _ => none
  | (img, n) :: tl, r =>
    if r < n then some (img.row (h0 - n + r)) else segRow h0 tl (r - n)

/-- The composition rule in the words of claim C3: the composite has the
claimed height, starts with image 0 in full, and each subsequent image
`i+1` contributes only its BOTTOM `round(deltas[i] * scale)` rows (rows
taken relative to that image's own height), appended in order. -/
def stitchClaimSpec (imgs : List Img) (deltas : List ℚ) (innerWidth : ℚ)
    (out : Img) : Prop :=
  match imgs with
  | [] => False
  | i0 :: rest =>
    let ns := nsOf i0 deltas innerWidth
    out.height = i0.height + ns.sum ∧
    (∀ y, y < i0.height → out.row y = i0.row y) ∧
    (∀ i r, i < ns.length → r < ns.getD i 0 →
      out.row (i0.height + (ns.take i).sum + r) =
        (rest.getD i dfltImg).row ((rest.getD i dfltImg).height - ns.getD i 0 + r))

/-! ### Concrete inputs for counterexamples -/

/-- C1 counterexample environment: two PID profiles, no rate select, abort
requested between the first and second `checkAbort` calls, the set-value
primitive and captures fully functional. -/
def exC1Env : CycleEnv :=
  { pidOpts := [0, 1], rateOpts := none, subTabCount := 1,
    abortFrom := some 1, setEffect := fun _ => true, captureOk := fun _ => true }

/-- C1 counterexample start state: the original PID profile is value 1. -/
def exC1St : CycleSt :=
  { pid := 1, rate := 7, abortCalls := 0, setCalls := 0, capCalls := 0, assets := [] }

/-- C1 witness environment: two PID profiles, two rate profiles, three
sub-tabs, no abort, all switches and captures effective. -/
def exC1EnvOk : CycleEnv :=
  { pidOpts := [0, 1], rateOpts := some [4, 5], subTabCount := 3,
    abortFrom := none, setEffect := fun _ => true, captureOk := fun _ => true }

/-- C2 counterexample options: everything enabled, no explicit selection. -/
def exC2Opts : Options :=
  { screenshots := true, cli := true, profiles := true, selectedTabs := none }

/-- C3 counterexample: first image, height 2, row y = [y]. -/
def exImg0 : Img := { width := 1, height := 2, row := fun y => [y] }

/-- C3 counterexample: second image, height 3, row y = [10 + y]. -/
def exImg1 : Img := { width := 1, height := 3, row := fun y => [10 + y] }

/-- C3 counterexample composite: code output for deltas [1] at scale 1. -/
def exStitched : Img :=
  (stitchScreenshots [exImg0, exImg1] [(1 : ℚ)] 1).getD exImg0

/-- C6 counterexample poll-length trace: 5, 3, 2, 2, ... (shrinking). -/
def exLens : Nat → Nat := fun i => [5, 3, 2].getD i 2

/-! ## Theorems -/

/-! ### Helper lemmas -/

theorem dropWhile_len_le (p : Char → Bool) (l : List Char) :
    (l.dropWhile p).length ≤ l.length := by
  induction l with
  | nil => simp
  | cons a as ih =>
    by_cases h : p a
    · simp only [List.dropWhile_cons, h, if_true]
      exact le_trans ih (Nat.le_succ _)
    · simp [List.dropWhile_cons, h]

theorem jsTrim_length_le (l : List Char) : (jsTrim l).length ≤ l.length := by
  unfold jsTrim
  calc ((l.dropWhile Char.isWhitespace).reverse.dropWhile Char.isWhitespace).reverse.length
      = ((l.dropWhile Char.isWhitespace).reverse.dropWhile Char.isWhitespace).length := by
        simp
    _ ≤ (l.dropWhile Char.isWhitespace).reverse.length := dropWhile_len_le _ _
    _ = (l.dropWhile Char.isWhitespace).length := by simp
    _ ≤ l.length := dropWhile_len_le _ _

/-- Pointwise agreement of the code's filter predicate with the amended C2
predicate (substring-based blacklist exclusion). -/
theorem includedTab_eq_amended (o : Options) (cls : String) :
    includedTab o cls = amendedIncludedTab o cls := by
  unfold includedTab amendedIncludedTab
  by_cases hb : BLACKLIST.any (fun b => jsIncludes cls b)
  · simp [hb]
  · by_cases hcli : cls = "tab_cli"
    · cases hc : o.cli <;> simp [hb, hcli, hc, List.any_eq]
    · cases hs : o.screenshots
      · simp [hb, hcli, hs]
      · cases hsel : o.selectedTabs with
        | none => simp [hb, hcli, hs, hsel]
        | some l =>
          cases l with
          | nil => simp [hb, hcli, hs, hsel]
          | cons a as => simp [hb, hcli, hs, hsel]

/-! ### C2: panel filtering and progress total -/

/-- C2 counterexample: the class "tab_presets_custom" is NOT a member of the
blacklist, so the claim's predicate includes it (screenshots enabled, no
explicit selection), but the code's `tab.cls.includes(b)` substring test
excludes it. -/
theorem C2_panel_filter_counterexample :
    claimIncludedTab exC2Opts "tab_presets_custom" = true ∧
    includedTab exC2Opts "tab_presets_custom" = false ∧
    totalTabs exC2Opts ["tab_presets_custom"] = 0 := by
  refine ⟨by decide, by decide, by decide⟩

/-- C2 amended: a discovered panel is included iff NO blacklist entry occurs
as a substring of its structural class (rather than: its class is not a
blacklist member); if it is the CLI panel, console capture is enabled; and
for every other panel, screenshot capture is enabled and (no explicit panel
selection was supplied or the class is in the selection).  The reported
progress total equals the number of discovered panels satisfying this
predicate. -/
theorem C2_panel_filter_amended (o : Options) (cls : String) (tabs : List String) :
    includedTab o cls = amendedIncludedTab o cls ∧
    totalTabs o tabs = tabs.countP (amendedIncludedTab o) := by
  refine ⟨includedTab_eq_amended o cls, ?_⟩
  have h1 : totalTabs o tabs = tabs.countP (includedTab o) := by
    simp [totalTabs, filteredTabs, List.countP_eq_length_filter]
  rw [h1]
  congr 1
  funext c
  exact includedTab_eq_amended o c

/-! ### C7: connectivity probe and run abort -/

/-- When the probe never reports an explicit disconnect (including `none` =
unknown), every panel is dispatched and the run ends without error. -/
theorem processTabs_all (doms : Nat → DomProbe) (tabs : List String) :
    ∀ i0, (∀ j, isConnected (doms j) ≠ some false) →
    processTabs (fun _ => false) doms tabs i0 = (tabs, none) := by
  induction tabs with
  | nil => intro i0 _; rfl
  | cons t ts ih =>
    intro i0 h
    simp [processTabs, h i0, ih (i0 + 1) h]

/-- When the probe first reports an explicit disconnect at panel `n`, the
run halts there with the fatal connection error and only the panels before
`n` were dispatched. -/
theorem processTabs_halt (doms : Nat → DomProbe) :
    ∀ (n : Nat) (tabs : List String) (i0 : Nat), n < tabs.length →
    isConnected (doms (i0 + n)) = some false →
    (∀ j, j < n → isConnected (doms (i0 + j)) ≠ some false) →
    processTabs (fun _ => false) doms tabs i0 =
      (tabs.take n, some "Connection lost - backup aborted.") := by
  intro n
  induction n with
  | zero =>
    intro tabs i0 hlen hdis _
    match tabs, hlen with
    | t :: ts, _ =>
      simp only [Nat.add_zero] at hdis
      simp [processTabs, hdis]
  | succ m ih =>
    intro tabs i0 hlen hdis hbefore
    match tabs, hlen with
    | t :: ts, hlen =>
      have h0 : isConnected (doms i0) ≠ some false := by
        have := hbefore 0 (Nat.succ_pos m)
        simpa using this
      have hrec := ih ts (i0 + 1) (by simpa using hlen)
        (by rw [Nat.add_right_comm]; exact hdis)
        (fun j hj => by
          rw [Nat.add_right_comm]
          exact hbefore (j + 1) (Nat.succ_lt_succ hj))
      simp [processTabs, h0, hrec, List.take_succ_cons]

/-- C7: before each panel visit `isConnected` is evaluated; an explicit
`false` probe aborts the run immediately with the fatal connection error,
dispatching no further panels; a `none` (unknown) probe — returned when no
connection indicator is found in the DOM — is treated as connected, so a
run whose probes are never explicitly `false` dispatches every panel. -/
theorem C7_connectivity_abort (doms : Nat → DomProbe) (tabs : List String) :
    ((∀ j, isConnected (doms j) ≠ some false) →
      processTabs (fun _ => false) doms tabs 0 = (tabs, none)) ∧
    (∀ n, n < tabs.length → isConnected (doms n) = some false →
      (∀ j, j < n → isConnected (doms j) ≠ some false) →
      processTabs (fun _ => false) doms tabs 0 =
        (tabs.take n, some "Connection lost - backup aborted.")) ∧
    isConnected ⟨none, none, false, false⟩ = none := by
  refine ⟨processTabs_all doms tabs 0, fun n hn hdis hb => ?_, rfl⟩
  have := processTabs_halt doms n tabs 0 hn (by simpa using hdis)
    (fun j hj => by simpa using hb j hj)
  exact this

/-- Witness for C7: disconnect detected at the second panel halts the run
after dispatching only the first; a probe with no indicators is unknown. -/
theorem C7_connectivity_abort_witness :
    processTabs (fun _ => false)
      (fun j => if j = 1 then ⟨some false, none, false, false⟩
                else ⟨none, none, false, false⟩)
      ["tab_setup", "tab_ports", "tab_osd"] 0 =
      (["tab_setup"], some "Connection lost - backup aborted.") :=
  (C7_connectivity_abort
    (fun j => if j = 1 then ⟨some false, none, false, false⟩
              else ⟨none, none, false, false⟩)
    ["tab_setup", "tab_ports", "tab_osd"]).2.1 1 (by decide) (by decide)
    (fun j hj => by
      interval_cases j
      · decide)

/-! ### C5: screenshot retry with backoff -/

/-- C5: `requestScreenshot` makes at most 3 attempts against the capture
primitive, sleeping `1500 * attemptNumber` ms between consecutive attempts;
after 3 consecutive failures it returns `none` (a value, not an exception),
and the caller (`captureAndSave`) treats that as skip-this-asset: it emits a
warning status, saves nothing, and returns normally. -/
theorem C5_requestScreenshot_retry (prim : Nat → Option String) :
    (prim 0 = none → prim 1 = none → prim 2 = none →
      requestScreenshot prim = (none, [1500, 3000, 4500]) ∧
      ∀ name, captureAndSaveSingle prim name =
        ([], ["WARNING: Screenshot failed for " ++ name])) ∧
    (∀ s, prim 0 = some s → requestScreenshot prim = (some s, [])) ∧
    (∀ s, prim 0 = none → prim 1 = some s →
      requestScreenshot prim = (some s, [1500])) ∧
    (∀ s, prim 0 = none → prim 1 = none → prim 2 = some s →
      requestScreenshot prim = (some s, [1500, 3000])) := by
  refine ⟨fun h0 h1 h2 => ?_, fun s h0 => ?_, fun s h0 h1 => ?_, fun s h0 h1 h2 => ?_⟩
  · constructor
    · simp [requestScreenshot, rsLoop, h0, h1, h2]
    · intro name
      simp [captureAndSaveSingle, requestScreenshot, rsLoop, h0, h1, h2]
  · simp [requestScreenshot, rsLoop, h0]
  · simp [requestScreenshot, rsLoop, h0, h1]
  · simp [requestScreenshot, rsLoop, h0, h1, h2]

/-- Witness for C5 at the always-failing and the second-try-succeeds
primitives. -/
theorem C5_requestScreenshot_retry_witness :
    requestScreenshot (fun _ => none) = (none, [1500, 3000, 4500]) ∧
    requestScreenshot (fun n => if n = 1 then some "u" else none) =
      (some "u", [1500]) := by
  refine ⟨((C5_requestScreenshot_retry (fun _ => none)).1 rfl rfl rfl).1, ?_⟩
  exact (C5_requestScreenshot_retry
    (fun n => if n = 1 then some "u" else none)).2.2.1 "u" rfl rfl

/-! ### C8: a single active run, duplicates rejected -/

/-- C8: while a run is active, `handleStartBackup` rejects a new start
request synchronously — it reports "Backup is already running.", leaves the
worker state untouched (nothing queued or merged) and emits no
`runExtraction` signal — and the content script ignores a duplicate
`runExtraction` message without starting a process. -/
theorem C8_single_run (s : BgState) (c : ContentState) (tabId : Nat) (ts : String) :
    (s.isRunning = true →
      handleStartBackup s tabId ts = (s, [.statusError "Backup is already running."])) ∧
    (c.backupRunning = true → onRunExtraction c = (c, false)) := by
  constructor
  · intro h; simp [handleStartBackup, h]
  · intro h; simp [onRunExtraction, h]

/-- Witness for C8 at a running worker state and a running content state. -/
theorem C8_single_run_witness :
    handleStartBackup ⟨true, some [], "r", some 3⟩ 5 "t" =
      (⟨true, some [], "r", some 3⟩, [.statusError "Backup is already running."]) ∧
    onRunExtraction ⟨true, false⟩ = (⟨true, false⟩, false) :=
  ⟨(C8_single_run ⟨true, some [], "r", some 3⟩ ⟨true, false⟩ 5 "t").1 rfl,
   (C8_single_run ⟨true, some [], "r", some 3⟩ ⟨true, false⟩ 5 "t").2 rfl⟩

/-! ### C9: CLI noise threshold -/

/-- C9: a CLI command's extracted text is persisted only if its length
exceeds the 10-character noise threshold (the code tests the trimmed
length, which never exceeds the raw length); at or below the threshold the
text is discarded with a warning event; and the command loop processes
every command to completion (one event per command, no hard error). -/
theorem C9_cli_noise_threshold (sent : Nat → Bool) (outs : Nat → List Char)
    (cmds : List String) (i : Nat) :
    (∀ file, cliCommandStep (sent i) (outs i) file = .saved file →
      10 < (outs i).length) ∧
    (sent i = true → (outs i).length ≤ 10 →
      cliCommandStep (sent i) (outs i) (cmds.getD i "") = .warning "No output.") ∧
    (handleCliTab sent outs cmds).length = cmds.length := by
  refine ⟨fun file hsaved => ?_, fun hsent hshort => ?_, by simp [handleCliTab]⟩
  · by_cases hs : sent i
    · by_cases hc : !(outs i).isEmpty && decide (10 < (jsTrim (outs i)).length)
      · have h10 : 10 < (jsTrim (outs i)).length := by
          simp only [Bool.and_eq_true, decide_eq_true_eq] at hc
          exact hc.2
        exact lt_of_lt_of_le h10 (jsTrim_length_le _)
      · simp [cliCommandStep, hs, hc] at hsaved
    · simp [cliCommandStep, hs] at hsaved
  · have hc : (!(outs i).isEmpty && decide (10 < (jsTrim (outs i)).length)) = false := by
      have := jsTrim_length_le (outs i)
      simp only [Bool.and_eq_false_iff, decide_eq_false_iff_not, not_lt]
      right; omega
    simp [cliCommandStep, hsent, hc]

/-- Witness for C9 at a 5-character output (below threshold). -/
theorem C9_cli_noise_threshold_witness :
    cliCommandStep true "hello".data "diff_all.txt" = .warning "No output." :=
  (C9_cli_noise_threshold (fun _ => true) (fun _ => "hello".data)
    ["diff_all.txt"] 0).2.1 rfl (by decide)

/-! ### Stitcher characterization lemmas (shared by C3 and C4) -/

/-- Rows above the drawing offset are untouched by the stitching loop. -/
theorem drawParts_below (h0 : Nat) :
    ∀ (l : List (Img × Nat)) (c : Nat → List Nat) (y r : Nat), r < y →
    drawParts h0 l c y r = c r := by
  intro l
  induction l with
  | nil => intro c y r _; rfl
  | cons p tl ih =>
    intro c y r hr
    obtain ⟨img, n⟩ := p
    simp only [drawParts]
    rw [ih _ (y + n) r (by omega)]
    simp only [drawImageRows]
    rw [if_neg (by omega)]

/-- A composite row at offset `r` below the drawing offset is the segment
lookup, falling back to the underlying canvas when `r` is past the
segments. -/
theorem drawParts_at (h0 : Nat) :
    ∀ (l : List (Img × Nat)) (c : Nat → List Nat) (y r : Nat),
    drawParts h0 l c y (y + r) = (segRow h0 l r).getD (c (y + r)) := by
  intro l
  induction l with
  | nil => intro c y r; rfl
  | cons p tl ih =>
    intro c y r
    obtain ⟨img, n⟩ := p
    simp only [drawParts, segRow]
    by_cases hr : r < n
    · rw [if_pos hr]
      rw [drawParts_below h0 tl _ (y + n) (y + r) (by omega)]
      simp only [drawImageRows]
      rw [if_pos (by omega)]
      simp only [Option.getD_some]
      congr 1
      omega
    · rw [if_neg hr]
      have hyr : y + r = (y + n) + (r - n) := by omega
      rw [hyr, ih _ (y + n) (r - n)]
      have hc : drawImageRows c img (h0 - n) n y ((y + n) + (r - n)) =
          c ((y + n) + (r - n)) := by
        simp only [drawImageRows]
        rw [if_neg (by omega)]
      rw [hc, ← hyr]

/-- The segment lookup at offset `(ns.take i).sum + r` lands in segment `i`
at row `h0 - ns[i] + r` of image `rest[i]`. -/
theorem segRow_lookup (h0 : Nat) :
    ∀ (i : Nat) (rest : List Img) (ns : List Nat) (r : Nat),
    i < ns.length → ns.length ≤ rest.length → r < ns.getD i 0 →
    segRow h0 (rest.zip ns) ((ns.take i).sum + r) =
      some ((rest.getD i dfltImg).row (h0 - ns.getD i 0 + r)) := by
  intro i
  induction i with
  | zero =>
    intro rest ns r hi hlen hr
    match ns, rest, hi, hlen with
    | n :: ns', img :: rest', _, _ =>
      simp only [List.getD_cons_zero] at hr
      simp [segRow, hr]
  | succ i ih =>
    intro rest ns r hi hlen hr
    match ns, rest, hi, hlen with
    | n :: ns', img :: rest', hi, hlen =>
      simp only [List.getD_cons_succ] at hr ⊢
      have htake : ((n :: ns').take (i + 1)).sum = n + (ns'.take i).sum := by
        simp [List.take_succ_cons]
      rw [htake]
      have harg : n + (ns'.take i).sum + r = n + ((ns'.take i).sum + r) := by omega
      rw [harg]
      simp only [List.zip_cons_cons, segRow]
      rw [if_neg (by omega)]
      have hsub : n + ((ns'.take i).sum + r) - n = (ns'.take i).sum + r := by omega
      rw [hsub]
      exact ih rest' ns' r (by simpa using hi) (by simpa using hlen) hr


/-- The stitcher on a non-empty part list, with its output made explicit. -/
theorem stitch_eq (i0 : Img) (rest : List Img) (deltas : List ℚ) (innerW : ℚ) :
    stitchScreenshots (i0 :: rest) deltas innerW = some
      { width := i0.width
        height := i0.height + (nsOf i0 deltas innerW).sum
        row := drawParts i0.height (rest.zip (nsOf i0 deltas innerW))
          (drawImageRows (fun _ => List.replicate i0.width 0) i0 0 i0.height 0)
          i0.height } := rfl

/-- Composite rows within the first image's extent are the first image's
rows (it is drawn in full at the top). -/
theorem stitch_row_head (i0 : Img) (rest : List Img) (deltas : List ℚ)
    (innerW : ℚ) (y : Nat) (hy : y < i0.height) :
    drawParts i0.height (rest.zip (nsOf i0 deltas innerW))
      (drawImageRows (fun _ => List.replicate i0.width 0) i0 0 i0.height 0)
      i0.height y = i0.row y := by
  rw [drawParts_below _ _ _ _ _ hy]
  simp only [drawImageRows]
  rw [if_pos (by omega)]
  congr 1
  omega

/-- Composite rows in segment `i` are rows `[h0 - ns[i], h0)` of part
`i+1`, where `h0` is the FIRST image's height. -/
theorem stitch_row_seg (i0 : Img) (rest : List Img) (deltas : List ℚ)
    (innerW : ℚ) (hlen : rest.length = deltas.length) (i r : Nat)
    (hi : i < deltas.length) (hr : r < (nsOf i0 deltas innerW).getD i 0) :
    drawParts i0.height (rest.zip (nsOf i0 deltas innerW))
      (drawImageRows (fun _ => List.replicate i0.width 0) i0 0 i0.height 0)
      i0.height
      (i0.height + ((nsOf i0 deltas innerW).take i).sum + r) =
      (rest.getD i dfltImg).row
        (i0.height - (nsOf i0 deltas innerW).getD i 0 + r) := by
  have hadd : i0.height + ((nsOf i0 deltas innerW).take i).sum + r =
      i0.height + (((nsOf i0 deltas innerW).take i).sum + r) := by omega
  rw [hadd, drawParts_at]
  rw [segRow_lookup i0.height i rest (nsOf i0 deltas innerW) r
    (by simpa [nsOf] using hi) (by simp [nsOf, hlen]) hr]
  rfl

/-- `Int.toNat` sums over non-negative integer lists cast back exactly. -/
theorem sum_toNat_int (l : List ℤ) (h : ∀ x ∈ l, 0 ≤ x) :
    (((l.map Int.toNat).sum : Nat) : ℤ) = l.sum := by
  induction l with
  | nil => simp
  | cons a l ih =>
    simp only [List.map_cons, List.sum_cons, Nat.cast_add]
    rw [Int.toNat_of_nonneg (h a (by simp)),
      ih (fun x hx => h x (by simp [hx]))]

/-- Sum of a one-longer prefix adds the element at the boundary. -/
theorem take_succ_sum : ∀ (l : List Nat) (j : Nat), j < l.length →
    (l.take (j + 1)).sum = (l.take j).sum + l.getD j 0 := by
  intro l
  induction l with
  | nil => intro j hj; simp at hj
  | cons a l ih =>
    intro j hj
    cases j with
    | zero => simp
    | succ j =>
      simp only [List.take_succ_cons, List.sum_cons, List.getD_cons_succ]
      rw [ih j (by simpa using hj)]
      omega

/-! ### C3: stitch height and composition rule -/

/-- C3 counterexample: two equal-width images of DIFFERENT heights (2 and
3), one scroll delta scaling to 1 new pixel row.  The code sources the
appended row from `images[0].height - newPx = 1` of image 1 (value [11]),
not from image 1's own bottom row 2 (value [12]) as the claim's "its bottom
rows" requires, so the claimed composition rule fails on this accepted
(equal-width) input. -/
theorem C3_stitch_counterexample :
    stitchScreenshots [exImg0, exImg1] [(1 : ℚ)] 1 = some exStitched ∧
    exStitched.row 2 = [11] ∧
    exImg1.row (exImg1.height - ((nsOf exImg0 [(1 : ℚ)] 1).getD 0 0) + 0) = [12] ∧
    ¬ stitchClaimSpec [exImg0, exImg1] [(1 : ℚ)] 1 exStitched := by
  have hns : nsOf exImg0 [(1 : ℚ)] 1 = [1] := by
    simp [nsOf, newPx, scaleOf, exImg0]
  have hrow : exStitched.row 2 = [11] := by
    have h2 : (2 : Nat) = exImg0.height + ((nsOf exImg0 [(1 : ℚ)] 1).take 0).sum + 0 := by
      rw [hns]; rfl
    calc exStitched.row 2
        = drawParts exImg0.height ([exImg1].zip (nsOf exImg0 [(1 : ℚ)] 1))
            (drawImageRows (fun _ => List.replicate exImg0.width 0) exImg0 0 exImg0.height 0)
            exImg0.height 2 := rfl
      _ = [11] := by
          rw [h2, stitch_row_seg exImg0 [exImg1] [(1 : ℚ)] 1 rfl 0 0 (by decide)
            (by rw [hns]; decide)]
          rw [hns]
          decide
  refine ⟨rfl, hrow, by rw [hns]; rfl, ?_⟩
  intro hspec
  have hseg := hspec.2.2 0 0 (by rw [hns]; decide) (by rw [hns]; decide)
  rw [hns] at hseg
  simp only [List.getD_cons_zero, List.take_zero, List.sum_nil, Nat.add_zero] at hseg
  have hcontra : exStitched.row 2 = exImg1.row (exImg1.height - 1 + 0) := by
    simpa [exImg0] using hseg
  rw [hrow] at hcontra
  simp [exImg1] at hcontra

/-- C3 amended: for every accepted image sequence (equal widths, one fewer
delta than images, non-negatively scaled deltas), the composite's height
equals `height(image[0]) + Σ round(scrollDeltas[i] × scale)` with
`scale = width(image[0]) / logical-viewport-width`; image 0 is drawn in
full at the top; and each subsequent image `i+1` contributes only the
`round(scrollDeltas[i] × scale)` pixel rows ENDING AT ROW
`height(image[0])` in its own coordinates (its bottom rows exactly when its
height equals the first image's height), appended directly below the
content placed so far. -/
theorem C3_stitch_amended (i0 : Img) (rest : List Img) (deltas : List ℚ)
    (innerW : ℚ) (hlen : rest.length = deltas.length)
    (_hw : ∀ img ∈ rest, img.width = i0.width)
    (hnn : ∀ d ∈ deltas, 0 ≤ round (d * scaleOf i0 innerW)) :
    ∃ out, stitchScreenshots (i0 :: rest) deltas innerW = some out ∧
      out.width = i0.width ∧
      (out.height : ℤ) = (i0.height : ℤ) +
        (deltas.map (fun d => round (d * scaleOf i0 innerW))).sum ∧
      (∀ y, y < i0.height → out.row y = i0.row y) ∧
      (∀ i r, i < deltas.length → r < (nsOf i0 deltas innerW).getD i 0 →
        out.row (i0.height + ((nsOf i0 deltas innerW).take i).sum + r) =
          (rest.getD i dfltImg).row
            (i0.height - (nsOf i0 deltas innerW).getD i 0 + r)) := by
  refine ⟨_, stitch_eq i0 rest deltas innerW, rfl, ?_, ?_, ?_⟩
  · have hns : nsOf i0 deltas innerW =
        (deltas.map (fun d => round (d * scaleOf i0 innerW))).map Int.toNat := by
      simp [nsOf, newPx, List.map_map, Function.comp]
    show ((i0.height + (nsOf i0 deltas innerW).sum : Nat) : ℤ) = _
    rw [hns, Nat.cast_add]
    rw [sum_toNat_int _ (fun x hx => by
      obtain ⟨d, hd, rfl⟩ := List.mem_map.mp hx
      exact hnn d hd)]
  · intro y hy
    exact stitch_row_head i0 rest deltas innerW y hy
  · intro i r hi hr
    exact stitch_row_seg i0 rest deltas innerW hlen i r hi hr

/-- Witness for C3 amended at two concrete images with a unit delta. -/
theorem C3_stitch_amended_witness :
    ∃ out, stitchScreenshots [exImg0, exImg1] [(1 : ℚ)] 1 = some out ∧
      out.width = exImg0.width ∧
      (out.height : ℤ) = (exImg0.height : ℤ) +
        ([(1 : ℚ)].map (fun d => round (d * scaleOf exImg0 1))).sum ∧
      (∀ y, y < exImg0.height → out.row y = exImg0.row y) ∧
      (∀ i r, i < [(1 : ℚ)].length → r < (nsOf exImg0 [(1 : ℚ)] 1).getD i 0 →
        out.row (exImg0.height + ((nsOf exImg0 [(1 : ℚ)] 1).take i).sum + r) =
          ([exImg1].getD i dfltImg).row
            (exImg0.height - (nsOf exImg0 [(1 : ℚ)] 1).getD i 0 + r)) :=
  C3_stitch_amended exImg0 [exImg1] [(1 : ℚ)] 1 rfl
    (by intro img h; simp at h; rw [h]; rfl)
    (by
      intro d hd
      simp only [List.mem_singleton] at hd
      subst hd
      norm_num [scaleOf, exImg0])

/-! ### C4: round-trip identity and boundary-row matching -/

/-- C4: stitching a single image with an empty delta list returns that image
unchanged (same width, same height, every row within the height identical);
and in any stitch (equal parts/deltas count, each scaled delta at least one
row and at most the first image's height), the pixel rows on both sides of
every join boundary match the corresponding source rows exactly: the row
just below boundary `j` is row `h0 - ns[j]` of part `j+1`, and the row just
above it is row `h0 - 1` of the part drawn before the boundary (part 0 for
the first boundary). -/
theorem C4_stitch_roundtrip (img i0 : Img) (rest : List Img) (deltas : List ℚ)
    (innerW : ℚ) (hlen : rest.length = deltas.length) (hh : 0 < i0.height)
    (hbound : ∀ n ∈ nsOf i0 deltas innerW, 0 < n ∧ n ≤ i0.height) :
    (∃ out, stitchScreenshots [img] [] innerW = some out ∧
      out.width = img.width ∧ out.height = img.height ∧
      ∀ y, y < img.height → out.row y = img.row y) ∧
    (∃ out, stitchScreenshots (i0 :: rest) deltas innerW = some out ∧
      ∀ j, j < deltas.length →
        out.row (i0.height + ((nsOf i0 deltas innerW).take j).sum) =
          (rest.getD j dfltImg).row
            (i0.height - (nsOf i0 deltas innerW).getD j 0) ∧
        out.row (i0.height + ((nsOf i0 deltas innerW).take j).sum - 1) =
          (if j = 0 then i0 else rest.getD (j - 1) dfltImg).row (i0.height - 1)) := by
  constructor
  · refine ⟨_, stitch_eq img [] [] innerW, rfl, by simp [nsOf], ?_⟩
    intro y hy
    exact stitch_row_head img [] [] innerW y hy
  · refine ⟨_, stitch_eq i0 rest deltas innerW, ?_⟩
    intro j hj
    have hjn : j < (nsOf i0 deltas innerW).length := by simpa [nsOf] using hj
    have hmem : (nsOf i0 deltas innerW).getD j 0 ∈ nsOf i0 deltas innerW := by
      rw [List.getD_eq_getElem _ _ hjn]
      exact List.getElem_mem _
    obtain ⟨hn1, hn2⟩ := hbound _ hmem
    constructor
    · have h0 := stitch_row_seg i0 rest deltas innerW hlen j 0 hj hn1
      simpa using h0
    · cases j with
      | zero =>
        simp only [List.take_zero, List.sum_nil, Nat.add_zero, if_pos rfl]
        exact stitch_row_head i0 rest deltas innerW (i0.height - 1) (by omega)
      | succ jj =>
        have hjjn : jj < (nsOf i0 deltas innerW).length := by omega
        have hmemjj : (nsOf i0 deltas innerW).getD jj 0 ∈ nsOf i0 deltas innerW := by
          rw [List.getD_eq_getElem _ _ hjjn]
          exact List.getElem_mem _
        obtain ⟨hm1, hm2⟩ := hbound _ hmemjj
        have htake := take_succ_sum (nsOf i0 deltas innerW) jj hjjn
        have harg : i0.height + ((nsOf i0 deltas innerW).take (jj + 1)).sum - 1 =
            i0.height + ((nsOf i0 deltas innerW).take jj).sum +
              ((nsOf i0 deltas innerW).getD jj 0 - 1) := by omega
        have hseg := stitch_row_seg i0 rest deltas innerW hlen jj
          ((nsOf i0 deltas innerW).getD jj 0 - 1) (by omega) (by omega)
        have hrow : i0.height - (nsOf i0 deltas innerW).getD jj 0 +
            ((nsOf i0 deltas innerW).getD jj 0 - 1) = i0.height - 1 := by omega
        rw [hrow] at hseg
        rw [harg]
        simpa using hseg

/-- Witness for C4 at a concrete single image and a concrete two-image
stitch with a unit delta. -/
theorem C4_stitch_roundtrip_witness :
    (∃ out, stitchScreenshots [exImg1] [] 1 = some out ∧
      out.width = exImg1.width ∧ out.height = exImg1.height ∧
      ∀ y, y < exImg1.height → out.row y = exImg1.row y) ∧
    (∃ out, stitchScreenshots [exImg0, exImg1] [(1 : ℚ)] 1 = some out ∧
      ∀ j, j < [(1 : ℚ)].length →
        out.row (exImg0.height + ((nsOf exImg0 [(1 : ℚ)] 1).take j).sum) =
          ([exImg1].getD j dfltImg).row
            (exImg0.height - (nsOf exImg0 [(1 : ℚ)] 1).getD j 0) ∧
        out.row (exImg0.height + ((nsOf exImg0 [(1 : ℚ)] 1).take j).sum - 1) =
          (if j = 0 then exImg0 else [exImg1].getD (j - 1) dfltImg).row
            (exImg0.height - 1)) :=
  C4_stitch_roundtrip exImg1 exImg0 [exImg1] [(1 : ℚ)] 1 rfl (by decide)
    (by
      have hns : nsOf exImg0 [(1 : ℚ)] 1 = [1] := by
        simp [nsOf, newPx, scaleOf, exImg0]
      rw [hns]
      intro n hn
      simp only [List.mem_singleton] at hn
      subst hn
      exact ⟨by omega, by decide⟩)

/-! ### C1: variant-cycling restoration -/

/-- With no abort requested, `checkAbort` never throws. -/
theorem shouldAbort_none (env : CycleEnv) (hab : env.abortFrom = none) (n : Nat) :
    shouldAbort env n = false := by
  simp [shouldAbort, hab]

/-- The PID loop never modifies the rate axis. -/
theorem pidLoop_rate (env : CycleEnv) :
    ∀ vs st, (pidLoop env vs st).1.rate = st.rate := by
  intro vs
  induction vs with
  | nil => intro st; rfl
  | cons v vs ih =>
    intro st
    simp only [pidLoop]
    by_cases h : shouldAbort env st.abortCalls
    · simp [checkAbortStep, h]
    · simp [checkAbortStep, h, ih, captureStep, setVerifiedPid]

/-- With no abort requested, the PID loop completes normally. -/
theorem pidLoop_ok (env : CycleEnv) (hab : env.abortFrom = none) :
    ∀ vs st, (pidLoop env vs st).2 = true := by
  intro vs
  induction vs with
  | nil => intro st; rfl
  | cons v vs ih =>
    intro st
    simp [pidLoop, checkAbortStep, shouldAbort_none env hab, ih]

/-- With no abort requested, the rate loop completes normally. -/
theorem rateLoop_ok (env : CycleEnv) (hab : env.abortFrom = none) :
    ∀ vs st, (rateLoop env vs st).2 = true := by
  intro vs
  induction vs with
  | nil => intro st; rfl
  | cons v vs ih =>
    intro st
    simp [rateLoop, checkAbortStep, shouldAbort_none env hab, ih]

/-- With no abort requested, the rate phase completes normally. -/
theorem ratePhase_ok (env : CycleEnv) (hab : env.abortFrom = none) (st : CycleSt) :
    (ratePhase env st).2 = true := by
  unfold ratePhase
  by_cases h1 : 1 < env.subTabCount
  · cases hro : env.rateOpts with
    | none => simp [h1, hro]
    | some ropts =>
      by_cases h2 : 1 < ropts.length
      · simp [h1, hro, h2, rateLoop_ok env hab]
      · simp [h1, hro, h2]
  · simp [h1]

/-- When the rate select was never found, the rate phase does not touch the
rate axis. -/
theorem ratePhase_rate_none (env : CycleEnv) (hro : env.rateOpts = none)
    (st : CycleSt) : (ratePhase env st).1.rate = st.rate := by
  unfold ratePhase
  by_cases h1 : 1 < env.subTabCount <;> simp [h1, hro, captureStep]

/-- The filter capture does not touch the rate axis. -/
theorem filterPhase_rate (env : CycleEnv) (st : CycleSt) :
    (filterPhase env st).rate = st.rate := by
  unfold filterPhase
  by_cases h : 2 < env.subTabCount <;> simp [h, captureStep]

/-- When every set-value call takes effect, restoration reapplies the
original PID value. -/
theorem restorePhase_pid (env : CycleEnv) (heff : ∀ n, env.setEffect n = true)
    (p : Nat) (orig : Option Nat) (st : CycleSt) :
    (restorePhase env p orig st).pid = p := by
  unfold restorePhase
  cases env.rateOpts <;> cases orig <;>
    simp [setVerifiedPid, setVerifiedRate, heff]

/-- When every set-value call takes effect and the rate select exists,
restoration reapplies the original rate value. -/
theorem restorePhase_rate_some (env : CycleEnv) (heff : ∀ n, env.setEffect n = true)
    (l : List Nat) (hro : env.rateOpts = some l) (p r : Nat) (st : CycleSt) :
    (restorePhase env p (some r) st).rate = r := by
  unfold restorePhase
  rw [hro]
  simp [setVerifiedPid, setVerifiedRate, heff]

/-- When the rate select was never found, restoration does not touch the
rate axis. -/
theorem restorePhase_rate_none (env : CycleEnv) (hro : env.rateOpts = none)
    (p : Nat) (orig : Option Nat) (st : CycleSt) :
    (restorePhase env p orig st).rate = st.rate := by
  unfold restorePhase
  rw [hro]
  cases orig <;> simp [setVerifiedPid]

/-- C1 counterexample: profile dropdowns found (two PID options), cycling
begins, every switch takes effect, and the user aborts between the first
and second loop iteration: `handlePidTuningTab` propagates the `checkAbort`
throw (returns abnormally) WITHOUT attempting restoration, leaving the PID
axis at option value 0 instead of the original value 1. -/
theorem C1_restoration_counterexample :
    1 < exC1Env.pidOpts.length ∧
    (handlePidTuningTab exC1Env exC1St).2 = false ∧
    ¬ ((handlePidTuningTab exC1Env exC1St).1.pid = exC1St.pid ∧
       (handlePidTuningTab exC1Env exC1St).1.rate = exC1St.rate) := by
  refine ⟨by decide, by decide, by decide⟩

/-- C1 amended: whenever the profile dropdowns were found, cycling began,
and the unit returns WITHOUT a cancellation having been raised at one of
its abort checkpoints (capture failures and any number of processed options
are still allowed), it attempts to restore both axes; when the set-value
primitive takes effect on every call, the axis values after the unit
returns equal the values before it started.  (A cancellation raised
mid-cycle propagates out before the restoration block runs.) -/
theorem C1_restoration_amended (env : CycleEnv) (s0 : CycleSt)
    (hcyc : 1 < env.pidOpts.length)
    (hab : env.abortFrom = none)
    (heff : ∀ n, env.setEffect n = true) :
    (handlePidTuningTab env s0).2 = true ∧
    (handlePidTuningTab env s0).1.pid = s0.pid ∧
    (handlePidTuningTab env s0).1.rate = s0.rate := by
  have h1 : (pidLoop env env.pidOpts s0).2 = true := pidLoop_ok env hab _ _
  have h2 : (ratePhase env (pidLoop env env.pidOpts s0).1).2 = true :=
    ratePhase_ok env hab _
  simp only [handlePidTuningTab, if_pos hcyc, h1, if_true, h2]
  refine ⟨trivial, restorePhase_pid env heff _ _ _, ?_⟩
  cases hro : env.rateOpts with
  | none =>
    rw [restorePhase_rate_none env hro, filterPhase_rate,
      ratePhase_rate_none env hro, pidLoop_rate]
  | some l =>
    exact restorePhase_rate_some env heff l hro _ _ _

/-- Witness for C1 amended: two PID and two rate profiles, no abort, all
switches effective — the run completes and both axes read their original
values. -/
theorem C1_restoration_amended_witness :
    (handlePidTuningTab exC1EnvOk exC1St).2 = true ∧
    (handlePidTuningTab exC1EnvOk exC1St).1.pid = exC1St.pid ∧
    (handlePidTuningTab exC1EnvOk exC1St).1.rate = exC1St.rate :=
  C1_restoration_amended exC1EnvOk exC1St (by decide) rfl (fun _ => rfl)

/-! ### C6: CLI quiescence detection -/

/-- Invariant soundness of the quiescence loop: a `some m` result means poll
`m` was non-empty and did not exceed the running maximum (`lastLen`), and an
earlier poll with the same property exists.  The two invariant hypotheses
hold at loop entry. -/
theorem cliGo_sound (lens : Nat → Nat) :
    ∀ (fuel lastLen stable k m : Nat),
    lastLen = runMax lens k →
    (stable = 0 ∨ (stable = 1 ∧ ∃ j, j < k ∧ 0 < lens j ∧ lens j ≤ runMax lens j)) →
    cliGo lens fuel lastLen stable k = some m →
    0 < lens m ∧ lens m ≤ runMax lens m ∧
      ∃ j, j < m ∧ 0 < lens j ∧ lens j ≤ runMax lens j := by
  intro fuel
  induction fuel with
  | zero => intro _ _ _ _ _ _ h; simp [cliGo] at h
  | succ f ih =>
    intro lastLen stable k m hlast hstable hrun
    simp only [cliGo] at hrun
    by_cases h1 : lastLen < lens k
    · rw [if_pos h1] at hrun
      refine ih (lens k) 0 (k + 1) m ?_ (Or.inl rfl) hrun
      simp only [runMax, hlast.symm]
      omega
    · rw [if_neg h1] at hrun
      by_cases h2 : 0 < lens k
      · rw [if_pos h2] at hrun
        by_cases h3 : 2 ≤ stable + 1
        · rw [if_pos h3] at hrun
          have hm : m = k := by injection hrun; omega
          subst hm
          have hle : lens m ≤ runMax lens m := hlast ▸ Nat.le_of_not_lt h1
          rcases hstable with h0 | ⟨_, hj⟩
          · omega
          · exact ⟨h2, hle, hj⟩
        · rw [if_neg h3] at hrun
          refine ih lastLen (stable + 1) (k + 1) m ?_ ?_ hrun
          · simp only [runMax, hlast.symm]
            omega
          · right
            refine ⟨by omega, k, Nat.lt_succ_self k, h2, hlast ▸ Nat.le_of_not_lt h1⟩
      · rw [if_neg h2] at hrun
        refine ih lastLen stable (k + 1) m ?_ ?_ hrun
        · simp only [runMax, hlast.symm]
          omega
        · rcases hstable with h0 | ⟨h1', j, hj, hjp, hjle⟩
          · exact Or.inl h0
          · exact Or.inr ⟨h1', j, Nat.lt_succ_of_lt hj, hjp, hjle⟩

/-- Under a strictly growing trace, every non-empty poll strictly exceeds
the running maximum. -/
theorem runMax_lt_of_strict (lens : Nat → Nat) (hmono : ∀ i, lens i < lens (i + 1)) :
    ∀ k, 0 < lens k → runMax lens k < lens k := by
  intro k
  induction k with
  | zero => intro h; simpa [runMax] using h
  | succ p ih =>
    intro _
    simp only [runMax]
    have hp : lens p < lens (p + 1) := hmono p
    by_cases h0 : 0 < lens p
    · have := ih h0
      omega
    · have hp0 : lens p = 0 := by omega
      cases p with
      | zero => simp only [runMax, hp0]; omega
      | succ q => exact absurd (hmono q) (by omega)

/-- A strictly growing trace resets the loop at every poll, so stability is
never declared for any poll budget. -/
theorem cliGo_strict_none (lens : Nat → Nat) (hmono : ∀ i, lens i < lens (i + 1)) :
    ∀ (fuel k lastLen : Nat), lastLen = runMax lens k →
    cliGo lens fuel lastLen 0 k = none := by
  intro fuel
  induction fuel with
  | zero => intro _ _ _; rfl
  | succ f ih =>
    intro k lastLen hlast
    simp only [cliGo]
    by_cases h1 : lastLen < lens k
    · rw [if_pos h1]
      refine ih (k + 1) (lens k) ?_
      simp only [runMax, hlast.symm]
      omega
    · rw [if_neg h1]
      by_cases h2 : 0 < lens k
      · exact absurd (runMax_lt_of_strict lens hmono k h2) (by omega)
      · rw [if_neg h2]
        refine ih (k + 1) lastLen ?_
        simp only [runMax, hlast.symm]
        omega

/-- C6 counterexample: on the shrinking trace 5, 3, 2 the loop declares
stability at poll 2 even though the observed length CHANGED at both of the
last two polls (5→3→2) — the code compares against the maximum seen so far,
not the previous poll, so the claim's "unchanged at two consecutive polls"
is violated. -/
theorem C6_quiescence_counterexample :
    cliWaitForStableOutput exLens 10 = some 2 ∧ 0 < exLens 2 ∧
      exLens 2 ≠ exLens 1 ∧ exLens 1 ≠ exLens 0 := by
  refine ⟨by decide, by decide, by decide, by decide⟩

/-- C6 amended: stability is declared at poll `k` only if poll `k` and some
earlier poll each observed a non-empty length that did not EXCEED THE
RUNNING MAXIMUM of previously observed lengths (for monotone traces this is
exactly "unchanged"); a trace whose length strictly increases at every poll
never triggers stability, and after the poll budget (`maxWaitMs`) elapses
the wait returns `none` normally, not an error. -/
theorem C6_quiescence_amended (lens : Nat → Nat) (maxPolls : Nat) :
    (∀ k, cliWaitForStableOutput lens maxPolls = some k →
      0 < lens k ∧ lens k ≤ runMax lens k ∧
        ∃ j, j < k ∧ 0 < lens j ∧ lens j ≤ runMax lens j) ∧
    ((∀ i, lens i < lens (i + 1)) → cliWaitForStableOutput lens maxPolls = none) := by
  constructor
  · intro k h
    exact cliGo_sound lens maxPolls 0 0 0 k rfl (Or.inl rfl) h
  · intro hmono
    exact cliGo_strict_none lens hmono maxPolls 0 0 rfl

/-- Witness for C6 at the constant trace 5, 5, 5, ... (stable at poll 2). -/
theorem C6_quiescence_amended_witness :
    0 < (fun _ : Nat => 5) 2 ∧
      (fun _ : Nat => 5) 2 ≤ runMax (fun _ => 5) 2 ∧
      ∃ j, j < 2 ∧ 0 < (fun _ : Nat => 5) j ∧
        (fun _ : Nat => 5) j ≤ runMax (fun _ => 5) j :=
  (C6_quiescence_amended (fun _ => 5) 10).1 2 (by decide)

/-! ### C10: saveFile with no active archive -/

/-- C10: a `saveFile` request arriving while no backup archive is active
(`backupZip` null) gets a `{success: false}` response and leaves the state
unchanged; in particular, after `stopBackup` ends a running backup the
archive is null, so assets emitted by a still-unwinding content script are
dropped, never added to any archive. -/
theorem C10_saveFile_no_archive (s : BgState) (folderName fileName content : String) :
    (s.backupZip = none →
      onSaveFile s folderName fileName content = (s, ⟨false⟩)) ∧
    (s.isRunning = true → s.activeTabId.isSome = true →
      (onStopBackup s).1.backupZip = none ∧
      onSaveFile (onStopBackup s).1 folderName fileName content =
        ((onStopBackup s).1, ⟨false⟩)) := by
  constructor
  · intro h; simp [onSaveFile, h]
  · intro hrun htab
    match htid : s.activeTabId with
    | none => simp [htid] at htab
    | some t =>
      have hstop : (onStopBackup s).1 = { s with isRunning := false, backupZip := none } := by
        simp [onStopBackup, htid, hrun]
      rw [hstop]
      exact ⟨rfl, by simp [onSaveFile]⟩

/-- Witness for C10 at a stopped and a running state. -/
theorem C10_saveFile_no_archive_witness :
    onSaveFile ⟨false, none, "", none⟩ "f" "g" "c" = (⟨false, none, "", none⟩, ⟨false⟩) ∧
    (onStopBackup ⟨true, some [], "r", some 3⟩).1.backupZip = none :=
  ⟨(C10_saveFile_no_archive ⟨false, none, "", none⟩ "f" "g" "c").1 rfl,
   ((C10_saveFile_no_archive ⟨true, some [], "r", some 3⟩ "f" "g" "c").2 rfl rfl).1⟩

end BfBackup
